import Mathlib

/-!
Verification of `cred_checker.py` (ALi3nW3rX/cred_checker).

This file gives a shallow embedding, in Lean, of the parts of
`src/cred_checker.py` that the specification's claims are about:

* `parse_url` (lines 179-198), including the behaviour of CPython's
  `urllib.parse.urlparse` on the strings this program feeds it (the
  program always feeds `urlparse` a string that starts with `http://`
  or `https://`, so only that fragment of `urlparse` is modelled;
  semantics follow current CPython (3.11) `urllib.parse`, satisfying
  the program's declared requirement of Python 3.8+: WHATWG
  sanitisation of the URL, netloc/path/params/query/fragment
  splitting, the `hostname` and `port` properties, and `ValueError`
  on a malformed port or on mismatched IPv6 brackets.  Strings are
  modelled as `List Char` internally (`String` at the boundary).
  Out of the model's scope: 3.11's content validation of a
  *bracketed* host via the `ipaddress` module, which can only fire
  for a netloc containing `[`/`]`, and non-ASCII case mapping in
  `str.lower()`; no theorem below depends on either.
* the SQLite result store: `_save_result` (110-123), the cache query
  in `scan_with_nmap` (212-228), and the report query
  `SELECT * FROM scans WHERE success=1 ORDER BY timestamp DESC`
  (437-441).  Rows are modelled as a Lean structure, the table as a
  `List` in insertion order, the `ORDER BY timestamp DESC` as an
  insertion sort by the (numeric model of the) timestamp.
* `scan_with_nmap` (200-279): the subprocess call, the temp-script
  file, and the success/credential-extraction parsing.  Effects that
  the claims talk about (file creation/deletion, rows persisted) are
  made explicit as fields of the returned record; the outcome of the
  external world (reading the NSE script, the nmap subprocess) is an
  explicit environment parameter.
* `scan_with_custom` (281-341): the credential loop over
  `DEFAULT_CREDS`, with the HTTP transport abstracted as a function
  from the attempt index to either a transport error or a
  `(status, body)` pair; the returned record additionally carries the
  number of issued requests and the per-iteration result dicts, which
  the code constructs (and mostly discards) on every iteration.

Pure values stand for the Python dicts; the wall-clock sleeps
(`time.sleep`, evasion delay) have no observable effect on any claim
and are not modelled.
-/

namespace CredChecker

/-! ## Characters and strings: helpers shared by the models -/

/-- ASCII-lowercasing of a character list, the model of `str.lower()`
on the ASCII range (all fixed markers in the program are ASCII). -/
def lowerChars (l : List Char) : List Char := l.map Char.toLower

/-- Substring containment, the model of Python's `needle in hay`. -/
def containsSub (needle : List Char) : List Char → Bool
  | [] => needle.isEmpty
  | c :: rest => needle.isPrefixOf (c :: rest) || containsSub needle rest

theorem containsSub_iff (needle : List Char) (hay : List Char) :
    containsSub needle hay = true ↔ needle <:+: hay := by
  induction hay with
  | nil =>
    simp [containsSub, List.isEmpty_iff, List.infix_nil]
  | cons c rest ih =>
    simp only [containsSub, Bool.or_eq_true, List.isPrefixOf_iff_prefix, ih,
      List.infix_cons_iff]

/-! ## The target parser: `parse_url` (cred_checker.py 179-198)

```python
def parse_url(self, url: str) -> Dict:
    if not url.startswith(('http://', 'https://')):
        url = 'http://' + url
    parsed = urlparse(url)
    proto = parsed.scheme or 'http'
    host = parsed.hostname or parsed.netloc.split(':')[0]
    port = parsed.port
    if not port:
        port = 443 if proto == 'https' else 80
    return {'url': url, 'proto': proto, 'host': host, 'port': port,
            'path': parsed.path or '/'}
```
-/

/-- The characters of `"http://"`. -/
def HTTP : List Char := ['h', 't', 't', 'p', ':', '/', '/']

/-- The characters of `"https://"`. -/
def HTTPS : List Char := ['h', 't', 't', 'p', 's', ':', '/', '/']

/-- The scheme-defaulting step of `parse_url`:
`if not url.startswith(('http://', 'https://')): url = 'http://' + url`. -/
def normalizeC (u : List Char) : List Char :=
  if HTTP.isPrefixOf u || HTTPS.isPrefixOf u then u else HTTP ++ u

/-- ASCII C0 control or space, CPython's `_WHATWG_C0_CONTROL_OR_SPACE`. -/
def isC0orSpace (c : Char) : Bool := decide (c.toNat ≤ 32)

/-- The bytes CPython's `urlsplit` removes from the URL
(`_UNSAFE_URL_BYTES_TO_REMOVE = ["\t", "\r", "\n"]`). -/
def tabCrLf (c : Char) : Bool := c == '\t' || c == '\r' || c == '\n'

/-- The input sanitisation of `urlsplit`: `url.lstrip(C0-or-space)` followed by
removal of every tab, CR and LF. -/
def sanitize (u : List Char) : List Char :=
  (u.dropWhile isC0orSpace).filter (fun c => !tabCrLf c)

/-- What remains of the (sanitised, scheme-prefixed) URL after stripping
`scheme://`; only called on strings that carry one of the two prefixes. -/
def restOf (subj : List Char) : List Char :=
  if HTTPS.isPrefixOf subj then subj.drop 8 else subj.drop 7

/-- The value of `parsed.scheme` for the strings this program builds: determined by the
literal prefix. -/
def schemeOfS (subj : List Char) : String :=
  if HTTPS.isPrefixOf subj then "https" else "http"

/-- The netloc delimiter set of `_splitnetloc`: `/`, `?`, `#`. -/
def notDelim (c : Char) : Bool := !(c == '/' || c == '?' || c == '#')

/-- The value of `parsed.netloc`: the chars after `//` up to the first `/`, `?` or `#`. -/
def netlocOf (subj : List Char) : List Char :=
  (restOf subj).takeWhile notDelim

/-- The part of the URL after the netloc (path, query, fragment). -/
def afterNetloc (subj : List Char) : List Char :=
  (restOf subj).dropWhile notDelim

/-- The mismatched-bracket check of `urlsplit`: raises `ValueError` when exactly
one of `[`, `]` occurs in the netloc. -/
def bracketMismatch (netloc : List Char) : Bool :=
  (netloc.contains '[' && !netloc.contains ']') ||
  (netloc.contains ']' && !netloc.contains '[')

/-- The value of `netloc.rpartition('@')[2]`: the part after the last `@` (the whole
netloc when there is no `@`). -/
def afterLastAt (netloc : List Char) : List Char :=
  (netloc.reverse.takeWhile (fun c => c != '@')).reverse

/-- CPython's `SplitResult._hostinfo`: split the user-stripped netloc into
the raw hostname and the raw port string (bracketed-IPv6 aware). -/
def hostPortSplit (netloc : List Char) : List Char × List Char :=
  let hostinfo := afterLastAt netloc
  if hostinfo.contains '[' then
    let bracketed := (hostinfo.dropWhile (fun c => c != '[')).tail
    let hostname := bracketed.takeWhile (fun c => c != ']')
    let afterBr := (bracketed.dropWhile (fun c => c != ']')).tail
    (hostname, (afterBr.dropWhile (fun c => c != ':')).tail)
  else
    (hostinfo.takeWhile (fun c => c != ':'),
     (hostinfo.dropWhile (fun c => c != ':')).tail)

/-- The raw port substring that `parsed.port` will try to interpret. -/
def portStrOf (subj : List Char) : List Char :=
  (hostPortSplit (netlocOf subj)).2

/-- The host assignment `parsed.hostname or parsed.netloc.split(':')[0]` of `parse_url`:
the lowercased hostname when non-empty, else the netloc up to the first
colon. -/
def hostOfS (subj : List Char) : List Char :=
  let hostRaw := (hostPortSplit (netlocOf subj)).1
  if hostRaw.isEmpty then (netlocOf subj).takeWhile (fun c => c != ':')
  else lowerChars hostRaw

def isDigitC (c : Char) : Bool := decide ('0' ≤ c) && decide (c ≤ '9')

/-- Decimal value of an all-digit string. -/
def digitsVal (s : List Char) : Nat :=
  s.foldl (fun acc c => acc * 10 + (c.toNat - '0'.toNat)) 0

/-- The errors `parse_url` can propagate (all are Python `ValueError`s
raised inside `urllib.parse`; the program defines no error of its own). -/
inductive PErr where
  | invalidIPv6
  | portValue
  | portRange
deriving Repr, DecidableEq

/-- CPython's `SplitResult.port`: `None` on an empty port string; the
port string must consist of ASCII digits only
(`port.isdigit() and port.isascii()`), be at most `65535`, and is
otherwise a `ValueError`. -/
def parsePort (s : List Char) : Except PErr (Option Nat) :=
  if s.isEmpty then .ok none
  else if s.all isDigitC then
    let n := digitsVal s
    if n ≤ 65535 then .ok (some n) else .error .portRange
  else .error .portValue

/-- The default branch `port = 443 if proto == 'https' else 80`. -/
def defaultPort (scheme : String) : Nat := if scheme = "https" then 443 else 80

/-- The port resolution of `parse_url`: `if not port: port = default` — note that
both an absent port and an explicit port `0` are falsy in Python. -/
def resolvePort (scheme : String) : Option Nat → Nat
  | none => defaultPort scheme
  | some p => if p = 0 then defaultPort scheme else p

/-- The raw path+query+fragment remainder cut down to the path
(`urlsplit` splits the fragment at the first `#` and the query at the
first `?`). -/
def pathRaw (subj : List Char) : List Char :=
  (afterNetloc subj).takeWhile (fun c => !(c == '?' || c == '#'))

/-- The `_splitparams` step of `urlparse`: drop the `;params` suffix of the last
path segment, if any. -/
def splitParams (p : List Char) : List Char :=
  if p.contains ';' then
    if p.contains '/' then
      let lastSeg := (p.reverse.takeWhile (fun c => c != '/')).reverse
      if lastSeg.contains ';' then
        p.take (p.length - lastSeg.length) ++ lastSeg.takeWhile (fun c => c != ';')
      else p
    else p.takeWhile (fun c => c != ';')
  else p

/-- The value of `parsed.path or '/'` with the params split applied. -/
def pathFinal (subj : List Char) : List Char :=
  let p := splitParams (pathRaw subj)
  if p.isEmpty then ['/'] else p

/-- The dict `parse_url` returns. -/
structure ParsedUrl where
  url : String
  proto : String
  host : String
  port : Nat
  path : String
deriving Repr, DecidableEq

/-- The `urlparse` call plus field extraction, applied to the prefixed URL `orig`
(stored unmodified in the `'url'` field) whose sanitised form is `subj`. -/
def parseCore (orig subj : List Char) : Except PErr ParsedUrl :=
  if bracketMismatch (netlocOf subj) then .error .invalidIPv6
  else
    match parsePort (portStrOf subj) with
    | .error e => .error e
    | .ok po =>
      .ok { url := orig.asString
            proto := schemeOfS subj
            host := (hostOfS subj).asString
            port := resolvePort (schemeOfS subj) po
            path := (pathFinal subj).asString }

/-- The function `parse_url` over character lists. -/
def parseUrlC (u : List Char) : Except PErr ParsedUrl :=
  let n := normalizeC u
  parseCore n (sanitize n)

/-- The function `parse_url` (cred_checker.py 179-198). -/
def parse_url (s : String) : Except PErr ParsedUrl := parseUrlC s.data

/-! ## The result store (SQLite table `scans`, cred_checker.py 91-123)

A row of the `scans` table.  The `id` autoincrement column is not
modelled (no claim mentions it); insertion order of the list plays its
role.  `timestamp` is `datetime.now().isoformat()`, a fixed-width text
whose lexicographic order agrees with time order, modelled as `Nat`. -/
structure ScanRow where
  url : String
  host : String
  port : Nat
  proto : String
  method : String
  username : String
  password : String
  success : Bool
  response : String
  timestamp : Nat
deriving Repr, DecidableEq

/-- A result dict as built by `scan_with_nmap` / `scan_with_custom`.
Optional fields model dict keys that are only sometimes set
(`username`, `password`, `response`); `cached` models the `'cached'`
key set only on the cache-hit path. -/
structure ResDict where
  url : String
  host : String
  port : Nat
  proto : String
  method : String
  username : Option String
  password : Option String
  success : Bool
  response : Option String
  cached : Bool
deriving Repr, DecidableEq

/-- The row `_save_result` inserts for a result dict:
`result.get('username', '')` / `result.get('password', '')` /
`result.get('response', '')` with the insertion time. -/
def toRow (d : ResDict) (now : Nat) : ScanRow :=
  { url := d.url, host := d.host, port := d.port, proto := d.proto
    method := d.method
    username := d.username.getD ""
    password := d.password.getD ""
    success := d.success
    response := d.response.getD ""
    timestamp := now }

/-- The method `_save_result` (cred_checker.py 110-123): append one row. -/
def save_result (st : List ScanRow) (d : ResDict) (now : Nat) : List ScanRow :=
  st ++ [toRow d now]

/-- Newest-first comparison used by `ORDER BY timestamp DESC`. -/
def newer (a b : ScanRow) : Prop := b.timestamp ≤ a.timestamp

instance : DecidableRel newer := fun _ _ => Nat.decLe _ _

instance : IsTotal ScanRow newer :=
  ⟨fun a b => (Nat.le_total b.timestamp a.timestamp).imp id id⟩

instance : IsTrans ScanRow newer := ⟨fun _ _ _ h1 h2 => Nat.le_trans h2 h1⟩

/-- The `WHERE` clause of the cache query in `scan_with_nmap`
(lines 215-218): `host=? AND port=? AND proto=? AND method='nmap-nse'`. -/
def rowMatches (h : String) (p : Nat) (pr : String) (m : String) (r : ScanRow) : Bool :=
  r.host == h && r.port == p && r.proto == pr && r.method == m

/-- The cache query `SELECT ... WHERE host=? AND port=? AND proto=? AND method=?
ORDER BY timestamp DESC LIMIT 1` (cred_checker.py 215-218). -/
def findLatest (st : List ScanRow) (h : String) (p : Nat) (pr : String) (m : String) :
    Option ScanRow :=
  (List.insertionSort newer (st.filter (rowMatches h p pr m))).head?

/-- The report query `SELECT * FROM scans WHERE success=1 ORDER BY timestamp DESC`
(cred_checker.py 439), the query feeding every report renderer. -/
def listSucceeded (st : List ScanRow) : List ScanRow :=
  List.insertionSort newer (st.filter (fun r => r.success))

/-! ## The external-scanner adapter: `scan_with_nmap` (cred_checker.py 200-279) -/

/-- What the `subprocess.run(...)` call does: returns the captured
stdout, raises `subprocess.TimeoutExpired`, or raises some other
exception `e` (modelled by its `str(e)` text). -/
inductive RunOut where
  | finished (stdout : String)
  | timedOut
  | failed (msg : String)
deriving Repr, DecidableEq

/-- The environment of one `scan_with_nmap` call: the `--no-cache` flag,
the outcome of reading `self.nmap_script` (`open` can raise, e.g. when
the script is absent), the outcome of the nmap subprocess, and the
insertion timestamp `datetime.now()` would produce. -/
structure NmapEnv where
  noCache : Bool
  scriptRead : Except String String
  run : RunOut
  now : Nat

/-- The check `'credentials found' in output.lower() or 'valid credentials' in
output.lower()` (cred_checker.py 260). -/
def nmapSuccess (output : String) : Bool :=
  containsSub "credentials found".data (lowerChars output.data) ||
  containsSub "valid credentials".data (lowerChars output.data)

/-- A `\w` character of the credential-extraction regex (ASCII range). -/
def isWordC (c : Char) : Bool :=
  isDigitC c || (decide ('a' ≤ c) && decide (c ≤ 'z')) ||
  (decide ('A' ≤ c) && decide (c ≤ 'Z')) || c == '_'

/-- The extraction `re.search(r'(\w+):(\w+)', output)` (cred_checker.py 263): the
leftmost match of word-run, colon, word-run, returning the two groups.
Greedy `\w+` cannot backtrack usefully here since `\w` and `:` are
disjoint, so each start position either matches with maximal runs or
not at all. -/
def credScan : List Char → Option (List Char × List Char)
  | [] => none
  | c :: rest =>
    (if isWordC c then
      match (c :: rest).dropWhile isWordC with
      | ':' :: after =>
        match after.takeWhile isWordC with
        | [] => none
        | u => some ((c :: rest).takeWhile isWordC, u)
      | _ => none
    else none) <|> credScan rest

/-- The observable outcome of one `scan_with_nmap` call: the returned
result dict, the store contents after the call, and whether the
per-target temp NSE script (`temp_{host}_{port}.nse`) was created
resp. deleted during the call. -/
structure NmapStep where
  result : ResDict
  store : List ScanRow
  tempCreated : Bool
  tempDeleted : Bool
deriving Repr, DecidableEq

/-- The method `scan_with_nmap` (cred_checker.py 200-279).  Control flow of the
source: build the base result; unless `--no-cache`, query the store and
return immediately (tagged `cached`) on a hit; otherwise inside
`try:` read the NSE script, write the per-target temp script, run nmap,
parse its stdout, and unlink the temp script — with
`except subprocess.TimeoutExpired` / `except Exception` setting the
response text; finally `_save_result` and return.  Note that the
`unlink` is the last statement of the `try:` block, so it is reached
only when reading, writing and running all succeed. -/
def scan_with_nmap (env : NmapEnv) (st : List ScanRow) (t : ParsedUrl) : NmapStep :=
  let base : ResDict :=
    { url := t.url, host := t.host, port := t.port, proto := t.proto
      method := "nmap-nse", username := none, password := none
      success := false, response := none, cached := false }
  match (if env.noCache then none else findLatest st t.host t.port t.proto "nmap-nse") with
  | some row =>
    ⟨{ base with success := row.success, username := some row.username,
                 password := some row.password, response := some row.response,
                 cached := true }, st, false, false⟩
  | none =>
    match env.scriptRead with
    | .error e =>
      let r := { base with response := some ("Error: " ++ e) }
      ⟨r, save_result st r env.now, false, false⟩
    | .ok _ =>
      match env.run with
      | .timedOut =>
        let r := { base with response := some "Timeout" }
        ⟨r, save_result st r env.now, true, false⟩
      | .failed m =>
        let r := { base with response := some ("Error: " ++ m) }
        ⟨r, save_result st r env.now, true, false⟩
      | .finished output =>
        let r0 :=
          if nmapSuccess output then
            match credScan output.data with
            | some (u, p) =>
              { base with success := true, username := some u.asString,
                          password := some p.asString }
            | none => { base with success := true }
          else base
        let r := { r0 with response := some output }
        ⟨r, save_result st r env.now, true, true⟩

/-! ## The credential probe engine: `scan_with_custom` (cred_checker.py 281-341) -/

/-- The static credential list `DEFAULT_CREDS` (cred_checker.py 42-53). -/
structure Cred where
  username : String
  password : String
  service : String
deriving Repr, DecidableEq

def DEFAULT_CREDS : List Cred :=
  [⟨"admin", "admin", "generic"⟩,
   ⟨"admin", "password", "generic"⟩,
   ⟨"root", "root", "generic"⟩,
   ⟨"root", "toor", "generic"⟩,
   ⟨"administrator", "administrator", "generic"⟩,
   ⟨"admin", "", "generic"⟩,
   ⟨"admin", "1234", "generic"⟩,
   ⟨"admin", "12345", "generic"⟩,
   ⟨"tomcat", "tomcat", "tomcat"⟩,
   ⟨"tomcat", "s3cret", "tomcat"⟩]

/-- The base result dict built at the top of each loop iteration
(cred_checker.py 297-306). -/
def mkCustomBase (t : ParsedUrl) (c : Cred) : ResDict :=
  { url := t.url, host := t.host, port := t.port, proto := t.proto
    method := "custom-basic", username := some c.username
    password := some c.password, success := false, response := none
    cached := false }

/-- The success classification (cred_checker.py 324-326):
`response.status_code == 200` and the lowercased body contains one of
the three fixed markers. -/
def checkSuccess (status : Nat) (body : String) : Bool :=
  status == 200 &&
    (["logout", "dashboard", "welcome"].any
      fun m => containsSub m.data (lowerChars body.data))

/-- One `client.get(...)` call for attempt index `i`: either a raised
transport exception (its `str(e)`) or a response `(status_code, text)`.
Each credential issues at most one such call, so the index into
`DEFAULT_CREDS` identifies the call. -/
abbrev Transport := Nat → Except String (Nat × String)

/-- The environment of one `scan_with_custom` call: whether
`import httpx` succeeds, and the transport. -/
structure CustomEnv where
  httpxAvailable : Bool
  transport : Transport

/-- The observable outcome of one `scan_with_custom` call: the returned
`results` list, the sequence of per-iteration result dicts in loop
order (each loop iteration constructs one dict; the source keeps only
the successful one), the number of `client.get` calls issued, and the
store contents after the call. -/
structure CustomOut where
  results : List ResDict
  attempts : List ResDict
  requests : Nat
  store : List ScanRow
deriving Repr, DecidableEq

/-- Whether attempt `i` would be classified successful:
the transport yields a response and `checkSuccess` holds of it
(a raised transport error is never a success). -/
def succAt (tr : Transport) (i : Nat) : Bool :=
  match tr i with
  | .ok (s, b) => checkSuccess s b
  | .error _ => false

/-- The result dict of the winning attempt `i` with credential `c`
(cred_checker.py 327-331). -/
def winRecord (tr : Transport) (t : ParsedUrl) (i : Nat) (c : Cred) : ResDict :=
  match tr i with
  | .ok (s, _) =>
    { mkCustomBase t c with
        success := true
        response := some ("HTTP " ++ toString s ++ " - Authenticated") }
  | .error _ => mkCustomBase t c

/-- The credential loop of `scan_with_custom` (cred_checker.py
296-339), iterating the tail of `DEFAULT_CREDS` from attempt index `i`:
on a response classified successful, append to `results`, persist one
row, and `break`; on a transport exception, set the `response` key to
the error text and continue; otherwise continue. -/
def customLoop (tr : Transport) (t : ParsedUrl) (now : Nat) (st : List ScanRow) :
    List Cred → Nat → CustomOut
  | [], _ => ⟨[], [], 0, st⟩
  | c :: cs, i =>
    let base := mkCustomBase t c
    match tr i with
    | .error e =>
      let r := { base with response := some ("Error: " ++ e) }
      let rest := customLoop tr t now st cs (i + 1)
      ⟨rest.results, r :: rest.attempts, rest.requests + 1, rest.store⟩
    | .ok (status, body) =>
      if checkSuccess status body then
        let r := { base with
                     success := true
                     response := some ("HTTP " ++ toString status ++ " - Authenticated") }
        ⟨[r], [r], 1, save_result st r now⟩
      else
        let rest := customLoop tr t now st cs (i + 1)
        ⟨rest.results, base :: rest.attempts, rest.requests + 1, rest.store⟩

/-- The method `scan_with_custom` (cred_checker.py 281-341): returns `[]` without
any request when `import httpx` fails, else runs the credential loop.
The evasion sleep and per-attempt rate-limit sleep have no observable
effect modelled here. -/
def scan_with_custom (env : CustomEnv) (t : ParsedUrl) (now : Nat)
    (st : List ScanRow) : CustomOut :=
  if env.httpxAvailable then customLoop env.transport t now st DEFAULT_CREDS 0
  else ⟨[], [], 0, st⟩

/-! ## Lemmas about the target parser -/

theorem data_asString (l : List Char) : l.asString.data = l := rfl

theorem http_isPrefixOf_append (l : List Char) :
    HTTP.isPrefixOf (HTTP ++ l) = true :=
  List.isPrefixOf_iff_prefix.mpr (List.prefix_append _ _)

theorem https_not_isPrefixOf_http_append (l : List Char) :
    HTTPS.isPrefixOf (HTTP ++ l) = false := by
  rw [Bool.eq_false_iff]
  intro h
  have h2 := List.isPrefixOf_iff_prefix.mp h
  simp [HTTP, HTTPS, List.cons_prefix_cons] at h2

theorem sanitize_http_append (l : List Char) :
    sanitize (HTTP ++ l) = HTTP ++ l.filter (fun c => !tabCrLf c) := by
  simp [sanitize, HTTP, isC0orSpace, tabCrLf, List.dropWhile, List.filter]

theorem normalizeC_prefixed (u : List Char)
    (h : (HTTP.isPrefixOf u || HTTPS.isPrefixOf u) = true) :
    normalizeC u = u := by
  simp [normalizeC, h]

theorem normalizeC_not_prefixed (u : List Char)
    (h : (HTTP.isPrefixOf u || HTTPS.isPrefixOf u) = false) :
    normalizeC u = HTTP ++ u := by
  simp [normalizeC, h]

theorem normalizeC_idem (u : List Char) :
    normalizeC (normalizeC u) = normalizeC u := by
  cases h : (HTTP.isPrefixOf u || HTTPS.isPrefixOf u) with
  | true =>
    rw [normalizeC_prefixed u h, normalizeC_prefixed u h]
  | false =>
    rw [normalizeC_not_prefixed u h,
      normalizeC_prefixed _ (by rw [http_isPrefixOf_append, Bool.true_or])]

/-- Destructuring a successful run of the parser core into its field
computations. -/
theorem parseCore_ok {orig subj : List Char} {r : ParsedUrl}
    (h : parseCore orig subj = .ok r) :
    ∃ po, parsePort (portStrOf subj) = .ok po ∧
      r = { url := orig.asString, proto := schemeOfS subj,
            host := (hostOfS subj).asString,
            port := resolvePort (schemeOfS subj) po,
            path := (pathFinal subj).asString } := by
  unfold parseCore at h
  split at h
  · exact absurd h (by simp)
  · split at h
    · exact absurd h (by simp)
    · rename_i po hpo
      refine ⟨po, hpo, ?_⟩
      injection h with h
      exact h.symm

/-- C1 (counterexample). The claim says `parse_url` fails with
`InvalidTargetError` when no host can be extracted.  On the input `""`
the netloc of the parsed URL `"http://"` is empty — no host can be
extracted — yet `parse_url` does not fail at all: it returns the
components with `host = ""` (and indeed no `InvalidTargetError` exists
anywhere in the program). -/
theorem c1_counterexample :
    parse_url "" = .ok ⟨"http://", "http", "", 80, "/"⟩ ∧
      netlocOf (sanitize (normalizeC "".data)) = [] := ⟨rfl, rfl⟩

/-- C1 (amended). `parse_url` never raises on an input from which no
host can be extracted: whenever the netloc of the normalised input is
empty, it returns the parsed components with `host = ""` (being a pure
function of its input, it also has no side effects); its only failures
are `ValueError`s from `urllib.parse` for a malformed explicit port or
mismatched brackets, which require a non-empty netloc. -/
theorem c1_parse_amended (s : String)
    (h : netlocOf (sanitize (normalizeC s.data)) = []) :
    ∃ r, parse_url s = .ok r ∧ r.host = "" := by
  refine ⟨{ url := (normalizeC s.data).asString
            proto := schemeOfS (sanitize (normalizeC s.data))
            host := ""
            port := defaultPort (schemeOfS (sanitize (normalizeC s.data)))
            path := (pathFinal (sanitize (normalizeC s.data))).asString }, ?_, rfl⟩
  show parseCore (normalizeC s.data) (sanitize (normalizeC s.data)) = _
  rw [parseCore, portStrOf, hostOfS, h]
  rfl

/-- C1 (witness for the amended statement, at the counterexample's
input `""`). -/
theorem c1_witness : ∃ r, parse_url "" = .ok r ∧ r.host = "" :=
  c1_parse_amended "" rfl

/-- C8. For every target string missing a scheme prefix, `parse_url`
resolves the scheme to `http`; for every input whose netloc carries no
explicit port string, the port defaults according to the resolved
scheme (80 for `http`, 443 for `https`); and the concrete scenario:
`"192.168.1.1"` parses to scheme `http`, host `"192.168.1.1"`,
port `80`, path `"/"`. -/
theorem c8_parse_defaults (s : String) (r : ParsedUrl)
    (h : parse_url s = .ok r) :
    ((HTTP.isPrefixOf s.data || HTTPS.isPrefixOf s.data) = false →
      r.proto = "http") ∧
    (portStrOf (sanitize (normalizeC s.data)) = [] →
      r.port = if r.proto = "https" then 443 else 80) ∧
    parse_url "192.168.1.1" =
      .ok ⟨"http://192.168.1.1", "http", "192.168.1.1", 80, "/"⟩ := by
  obtain ⟨po, hpo, hr⟩ :=
    parseCore_ok
      (show parseCore (normalizeC s.data) (sanitize (normalizeC s.data)) = .ok r from h)
  subst hr
  refine ⟨?_, ?_, rfl⟩
  · intro hns
    show schemeOfS (sanitize (normalizeC s.data)) = "http"
    rw [normalizeC_not_prefixed _ hns, sanitize_http_append]
    simp [schemeOfS, https_not_isPrefixOf_http_append]
  · intro hport
    rw [hport] at hpo
    have hnone : po = none := by
      have : (Except.ok none : Except PErr (Option Nat)) = .ok po := hpo
      injection this with this
      exact this.symm
    subst hnone
    rfl

/-- C8 (witness): the defaults at the concrete schemeless input
`"192.168.1.1"`. -/
theorem c8_witness :
    (⟨"http://192.168.1.1", "http", "192.168.1.1", 80, "/"⟩ : ParsedUrl).proto
        = "http" ∧
    (⟨"http://192.168.1.1", "http", "192.168.1.1", 80, "/"⟩ : ParsedUrl).port
        = 80 := by
  have h := c8_parse_defaults "192.168.1.1"
    ⟨"http://192.168.1.1", "http", "192.168.1.1", 80, "/"⟩ rfl
  exact ⟨h.1 rfl, (h.2.1 rfl).trans (by rfl)⟩

/-- C9. Parsing is idempotent: if `parse_url` succeeds on an input,
applying it to the normalised URL stored in the result's `url` field
returns the very same components. -/
theorem c9_parse_idempotent (s : String) (r : ParsedUrl)
    (h : parse_url s = .ok r) : parse_url r.url = .ok r := by
  obtain ⟨po, hpo, hr⟩ :=
    parseCore_ok
      (show parseCore (normalizeC s.data) (sanitize (normalizeC s.data)) = .ok r from h)
  subst hr
  show parseCore (normalizeC (normalizeC s.data))
      (sanitize (normalizeC (normalizeC s.data))) = _
  rw [normalizeC_idem]
  exact h

/-- C9 (witness): reparsing the normalised output of parsing
`"192.168.1.1"` returns the same components. -/
theorem c9_witness :
    parse_url "http://192.168.1.1" =
      .ok ⟨"http://192.168.1.1", "http", "192.168.1.1", 80, "/"⟩ :=
  c9_parse_idempotent "192.168.1.1"
    ⟨"http://192.168.1.1", "http", "192.168.1.1", 80, "/"⟩ rfl

/-! ## The store queries -/

/-- C6. For every store contents, the report query `listSucceeded`
returns exactly the records with `success = true` (as a permutation of
the filtered store, hence the same records with multiplicity and no
others) ordered newest-first by timestamp. -/
theorem c6_listSucceeded_exact_and_sorted (rows : List ScanRow) :
    (listSucceeded rows).Perm (rows.filter fun r => r.success) ∧
    (listSucceeded rows).Sorted newer :=
  ⟨List.perm_insertionSort _ _, List.sorted_insertionSort _ _⟩

/-! ## The external-scanner adapter -/

/-- A sample parsed target shared by the concrete evaluations below. -/
def tH : ParsedUrl := ⟨"http://h", "http", "h", 80, "/"⟩

/-- A sample pre-existing `nmap-nse` row for the cache-hit evaluations. -/
def r0 : ScanRow := ⟨"http://h", "h", 80, "http", "nmap-nse", "u", "p", true, "resp", 3⟩

/-- C2 (evaluation at the failing input). The claim — and the spec's
"deletion must occur even when the invocation itself failed" — require
the per-target temp NSE script to be deleted on every non-cache-hit
path.  The code's `unlink` is the last statement inside the `try:`
block, so when `subprocess.run` raises (`TimeoutExpired` or any other
error) the temp script has been created but is never deleted; it is
deleted only on the path where the invocation finishes. -/
theorem c2_temp_file_leaked_on_failure :
    ((scan_with_nmap ⟨false, .ok "script", .timedOut, 1⟩ [] tH).tempCreated = true ∧
     (scan_with_nmap ⟨false, .ok "script", .timedOut, 1⟩ [] tH).tempDeleted = false ∧
     (scan_with_nmap ⟨false, .ok "script", .timedOut, 1⟩ [] tH).result.response
       = some "Timeout") ∧
    ((scan_with_nmap ⟨false, .ok "script", .failed "boom", 1⟩ [] tH).tempCreated = true ∧
     (scan_with_nmap ⟨false, .ok "script", .failed "boom", 1⟩ [] tH).tempDeleted = false) ∧
    ((scan_with_nmap ⟨false, .ok "script", .finished "out", 1⟩ [] tH).tempCreated = true ∧
     (scan_with_nmap ⟨false, .ok "script", .finished "out", 1⟩ [] tH).tempDeleted = true) :=
  ⟨⟨rfl, rfl, rfl⟩, ⟨rfl, rfl⟩, ⟨rfl, rfl⟩⟩

/-- C5. In `scan_with_nmap`: when caching is enabled and the cache
query returns a row for `(host, port, proto, 'nmap-nse')`, that row's
fields are returned tagged `cached = true` and the store is unchanged;
on every other execution (cache disabled, or no matching row) exactly
one new row — the insert of the returned result — is appended; and the
cache query does return a row whenever a matching record exists in the
store. -/
theorem c5_cache_hit_or_persist (env : NmapEnv) (st : List ScanRow) (t : ParsedUrl) :
    (env.noCache = false →
      ∀ row, findLatest st t.host t.port t.proto "nmap-nse" = some row →
        (scan_with_nmap env st t).result.cached = true ∧
        (scan_with_nmap env st t).result.success = row.success ∧
        (scan_with_nmap env st t).result.username = some row.username ∧
        (scan_with_nmap env st t).result.password = some row.password ∧
        (scan_with_nmap env st t).result.response = some row.response ∧
        (scan_with_nmap env st t).store = st) ∧
    ((env.noCache = true ∨ findLatest st t.host t.port t.proto "nmap-nse" = none) →
      (scan_with_nmap env st t).store =
        st ++ [toRow (scan_with_nmap env st t).result env.now]) ∧
    (∀ r ∈ st, rowMatches t.host t.port t.proto "nmap-nse" r = true →
      (findLatest st t.host t.port t.proto "nmap-nse").isSome = true) := by
  refine ⟨?_, ?_, ?_⟩
  · intro hnc row hrow
    simp [scan_with_nmap, hnc, hrow]
  · rintro (h | h)
    · cases hs : env.scriptRead with
      | error e => simp [scan_with_nmap, h, hs, save_result]
      | ok c =>
        cases hr : env.run with
        | finished out => simp [scan_with_nmap, h, hs, hr, save_result]
        | timedOut => simp [scan_with_nmap, h, hs, hr, save_result]
        | failed m => simp [scan_with_nmap, h, hs, hr, save_result]
    · cases hb : env.noCache with
      | true =>
        cases hs : env.scriptRead with
        | error e => simp [scan_with_nmap, hb, hs, save_result]
        | ok c =>
          cases hr : env.run with
          | finished out => simp [scan_with_nmap, hb, hs, hr, save_result]
          | timedOut => simp [scan_with_nmap, hb, hs, hr, save_result]
          | failed m => simp [scan_with_nmap, hb, hs, hr, save_result]
      | false =>
        cases hs : env.scriptRead with
        | error e => simp [scan_with_nmap, hb, h, hs, save_result]
        | ok c =>
          cases hr : env.run with
          | finished out => simp [scan_with_nmap, hb, h, hs, hr, save_result]
          | timedOut => simp [scan_with_nmap, hb, h, hs, hr, save_result]
          | failed m => simp [scan_with_nmap, hb, h, hs, hr, save_result]
  · intro r hr hm
    have hmem : r ∈ st.filter (rowMatches t.host t.port t.proto "nmap-nse") :=
      List.mem_filter.mpr ⟨hr, hm⟩
    have hne : st.filter (rowMatches t.host t.port t.proto "nmap-nse") ≠ [] :=
      List.ne_nil_of_mem hmem
    cases hsort : List.insertionSort newer
        (st.filter (rowMatches t.host t.port t.proto "nmap-nse")) with
    | nil =>
      exfalso
      apply hne
      have hperm := List.perm_insertionSort newer
        (st.filter (rowMatches t.host t.port t.proto "nmap-nse"))
      rw [hsort] at hperm
      exact hperm.symm.eq_nil
    | cons a l => simp [findLatest, hsort]

/-- C5 (witness): a cache hit on a store holding a matching row leaves
the store unchanged and returns `cached = true`; a `--no-cache` run
appends exactly the one inserted row. -/
theorem c5_witness :
    ((scan_with_nmap ⟨false, .ok "s", .finished "out", 9⟩ [r0] tH).result.cached = true ∧
     (scan_with_nmap ⟨false, .ok "s", .finished "out", 9⟩ [r0] tH).store = [r0]) ∧
    (scan_with_nmap ⟨true, .ok "s", .timedOut, 9⟩ [] tH).store =
      [] ++ [toRow (scan_with_nmap ⟨true, .ok "s", .timedOut, 9⟩ [] tH).result 9] := by
  have h1 := (c5_cache_hit_or_persist ⟨false, .ok "s", .finished "out", 9⟩ [r0] tH).1
    rfl r0 (by rfl)
  have h2 := (c5_cache_hit_or_persist ⟨true, .ok "s", .timedOut, 9⟩ [] tH).2.1
    (Or.inl rfl)
  exact ⟨⟨h1.1, h1.2.2.2.2.2⟩, h2⟩

/-! ## The credential probe engine -/

/-- The loop issues at most one request per remaining credential. -/
theorem customLoop_requests_le (tr : Transport) (t : ParsedUrl) (now : Nat)
    (st : List ScanRow) :
    ∀ (l : List Cred) (i : Nat), (customLoop tr t now st l i).requests ≤ l.length := by
  intro l
  induction l with
  | nil => intro i; simp [customLoop]
  | cons c cs ih =>
    intro i
    simp only [customLoop]
    cases htr : tr i with
    | error e =>
      simpa using Nat.succ_le_succ (ih (i + 1))
    | ok sb =>
      obtain ⟨status, body⟩ := sb
      by_cases hcs : checkSuccess status body = true
      · simp [hcs]
      · rw [Bool.not_eq_true] at hcs
        simpa [hcs] using Nat.succ_le_succ (ih (i + 1))

/-- If the first classified success among the remaining credentials is
the `k`-th, the loop issues exactly `k + 1` requests, returns exactly
the winning record, and persists exactly that one row. -/
theorem customLoop_first_success (tr : Transport) (t : ParsedUrl) (now : Nat)
    (st : List ScanRow) :
    ∀ (l : List Cred) (i k : Nat) (hk : k < l.length),
      (∀ j, j < k → succAt tr (i + j) = false) →
      succAt tr (i + k) = true →
      (customLoop tr t now st l i).requests = k + 1 ∧
      (customLoop tr t now st l i).results = [winRecord tr t (i + k) l[k]] ∧
      (customLoop tr t now st l i).store = st ++ [toRow (winRecord tr t (i + k) l[k]) now] := by
  intro l
  induction l with
  | nil =>
    intro i k hk
    exact absurd hk (by simp)
  | cons c cs ih =>
    intro i k hk hpre hsucc
    cases k with
    | zero =>
      rw [Nat.add_zero] at hsucc
      cases htr : tr i with
      | error e =>
        rw [succAt, htr] at hsucc
        exact absurd hsucc (by simp)
      | ok sb =>
        obtain ⟨status, body⟩ := sb
        simp only [succAt, htr] at hsucc
        simp only [customLoop, htr, Nat.add_zero, List.getElem_cons_zero]
        rw [if_pos hsucc]
        exact ⟨rfl, by simp [winRecord, htr], by simp [winRecord, htr, save_result]⟩
    | succ k' =>
      have h0 : succAt tr i = false := by
        have := hpre 0 (Nat.succ_pos _)
        rwa [Nat.add_zero] at this
      have hk' : k' < cs.length := Nat.lt_of_succ_lt_succ (by simpa using hk)
      have hpre' : ∀ j, j < k' → succAt tr (i + 1 + j) = false := by
        intro j hj
        have := hpre (j + 1) (Nat.succ_lt_succ hj)
        rwa [show i + (j + 1) = i + 1 + j by omega] at this
      have hsucc' : succAt tr (i + 1 + k') = true := by
        rwa [show i + 1 + k' = i + (k' + 1) by omega]
      have hidx : i + 1 + k' = i + (k' + 1) := by omega
      obtain ⟨hreq, hres, hst⟩ := ih (i + 1) k' hk' hpre' hsucc'
      rw [hidx] at hres hst
      cases htr : tr i with
      | error e =>
        simp only [customLoop, htr, List.getElem_cons_succ]
        exact ⟨by rw [hreq], by rw [hres], by rw [hst]⟩
      | ok sb =>
        obtain ⟨status, body⟩ := sb
        have hcs : ¬(checkSuccess status body = true) := by
          simp only [succAt, htr] at h0
          simp [h0]
        simp only [customLoop, htr, List.getElem_cons_succ]
        rw [if_neg hcs]
        exact ⟨by rw [hreq], by rw [hres], by rw [hst]⟩

/-- C3. The probe engine issues at most one request per entry of
`DEFAULT_CREDS` — never more than the list's length — and when the
first credential classified successful is the `k`-th, it issues exactly
`k + 1` requests (none for later credentials) and persists exactly one
record, the winning one. -/
theorem c3_probe_bounded_stops_at_first_success (env : CustomEnv) (t : ParsedUrl)
    (now : Nat) (st : List ScanRow) :
    (scan_with_custom env t now st).requests ≤ DEFAULT_CREDS.length ∧
    (∀ k (hk : k < DEFAULT_CREDS.length),
      env.httpxAvailable = true →
      (∀ j, j < k → succAt env.transport j = false) →
      succAt env.transport k = true →
      (scan_with_custom env t now st).requests = k + 1 ∧
      (scan_with_custom env t now st).results =
        [winRecord env.transport t k DEFAULT_CREDS[k]] ∧
      (scan_with_custom env t now st).store =
        st ++ [toRow (winRecord env.transport t k DEFAULT_CREDS[k]) now]) := by
  constructor
  · cases ha : env.httpxAvailable with
    | true =>
      simp only [scan_with_custom, ha, if_true]
      exact customLoop_requests_le env.transport t now st DEFAULT_CREDS 0
    | false => simp [scan_with_custom, ha]
  · intro k hk ha hpre hsucc
    simp only [scan_with_custom, ha, if_true]
    have hpre' : ∀ j, j < k → succAt env.transport (0 + j) = false := by
      intro j hj
      simpa using hpre j hj
    have hsucc' : succAt env.transport (0 + k) = true := by
      simpa using hsucc
    have h := customLoop_first_success env.transport t now st DEFAULT_CREDS 0 k hk
      hpre' hsucc'
    simpa using h

/-- The probe transport for the C3 witness: attempt 0 gets a 401,
every later attempt a 200 with a marker. -/
def envW : CustomEnv :=
  ⟨true, fun i => if i = 0 then .ok (401, "no") else .ok (200, "Welcome Dashboard")⟩

/-- C3 (witness): with the first success at index 1, exactly two
requests are issued and exactly the winning record is persisted. -/
theorem c3_witness :
    (scan_with_custom envW tH 7 []).requests = 1 + 1 ∧
    (scan_with_custom envW tH 7 []).results =
      [winRecord envW.transport tH 1 (DEFAULT_CREDS.get ⟨1, by decide⟩)] ∧
    (scan_with_custom envW tH 7 []).store =
      [] ++ [toRow (winRecord envW.transport tH 1 (DEFAULT_CREDS.get ⟨1, by decide⟩)) 7] :=
  (c3_probe_bounded_stops_at_first_success envW tH 7 []).2 1 (by decide) rfl
    (by decide) (by decide)

/-- C4. An attempt is classified successful exactly when the response
status is `200` and the lowercased body contains one of the three fixed
markers; every other combination is not a success. -/
theorem c4_success_iff_200_and_marker (status : Nat) (body : String) :
    checkSuccess status body = true ↔
      status = 200 ∧
        ∃ m ∈ (["logout", "dashboard", "welcome"] : List String),
          m.data <:+: lowerChars body.data := by
  simp [checkSuccess, List.any_eq_true, containsSub_iff]

/-- A transport error at a reached attempt is recorded in that
iteration's result dict and the loop moves on to the next credential. -/
theorem customLoop_attempt_error (tr : Transport) (t : ParsedUrl) (now : Nat)
    (st : List ScanRow) :
    ∀ (l : List Cred) (i k : Nat) (hk : k < l.length),
      (∀ j, j < k → succAt tr (i + j) = false) →
      ∀ e, tr (i + k) = .error e →
      (customLoop tr t now st l i).attempts[k]? =
        some { mkCustomBase t l[k] with response := some ("Error: " ++ e) } := by
  intro l
  induction l with
  | nil =>
    intro i k hk
    exact absurd hk (by simp)
  | cons c cs ih =>
    intro i k hk hpre e he
    cases k with
    | zero =>
      rw [Nat.add_zero] at he
      simp only [customLoop, he, List.getElem_cons_zero, List.getElem?_cons_zero]
    | succ k' =>
      have h0 : succAt tr i = false := by
        have := hpre 0 (Nat.succ_pos _)
        rwa [Nat.add_zero] at this
      have hk' : k' < cs.length := Nat.lt_of_succ_lt_succ (by simpa using hk)
      have hpre' : ∀ j, j < k' → succAt tr (i + 1 + j) = false := by
        intro j hj
        have := hpre (j + 1) (Nat.succ_lt_succ hj)
        rwa [show i + (j + 1) = i + 1 + j by omega] at this
      have he' : tr (i + 1 + k') = .error e := by
        rwa [show i + 1 + k' = i + (k' + 1) by omega]
      have hrec := ih (i + 1) k' hk' hpre' e he'
      cases htr : tr i with
      | error e2 =>
        simp only [customLoop, htr, List.getElem_cons_succ, List.getElem?_cons_succ]
        exact hrec
      | ok sb =>
        obtain ⟨status, body⟩ := sb
        have hcs : ¬(checkSuccess status body = true) := by
          simp only [succAt, htr] at h0
          simp [h0]
        simp only [customLoop, htr, List.getElem_cons_succ]
        rw [if_neg hcs]
        simp only [List.getElem?_cons_succ]
        exact hrec

/-- If none of the first `m` remaining attempts is classified
successful and an `m`-th remaining credential exists, the loop issues
at least `m + 1` requests (the first `m + 1` iterations all run). -/
theorem customLoop_requests_lower (tr : Transport) (t : ParsedUrl) (now : Nat)
    (st : List ScanRow) :
    ∀ (l : List Cred) (i m : Nat), m < l.length →
      (∀ j, j < m → succAt tr (i + j) = false) →
      m + 1 ≤ (customLoop tr t now st l i).requests := by
  intro l
  induction l with
  | nil =>
    intro i m hm
    exact absurd hm (by simp)
  | cons c cs ih =>
    intro i m hm hpre
    cases m with
    | zero =>
      cases htr : tr i with
      | error e => simp [customLoop, htr]
      | ok sb =>
        obtain ⟨status, body⟩ := sb
        by_cases hcs : checkSuccess status body = true
        · simp [customLoop, htr, hcs]
        · rw [Bool.not_eq_true] at hcs
          simp [customLoop, htr, hcs]
    | succ m' =>
      have h0 : succAt tr i = false := by
        have := hpre 0 (Nat.succ_pos _)
        rwa [Nat.add_zero] at this
      have hm' : m' < cs.length := Nat.lt_of_succ_lt_succ (by simpa using hm)
      have hpre' : ∀ j, j < m' → succAt tr (i + 1 + j) = false := by
        intro j hj
        have := hpre (j + 1) (Nat.succ_lt_succ hj)
        rwa [show i + (j + 1) = i + 1 + j by omega] at this
      have hrec := ih (i + 1) m' hm' hpre'
      cases htr : tr i with
      | error e =>
        simp only [customLoop, htr]
        exact Nat.succ_le_succ hrec
      | ok sb =>
        obtain ⟨status, body⟩ := sb
        have hcs : ¬(checkSuccess status body = true) := by
          simp only [succAt, htr] at h0
          simp [h0]
        simp only [customLoop, htr]
        rw [if_neg hcs]
        exact Nat.succ_le_succ hrec

/-- C7. When the request for credential `k` raises a transport error
(and no earlier credential was classified successful, so attempt `k` is
reached), the error text is recorded as the `response` evidence of that
attempt's result dict, and the loop continues: when a next credential
exists it is also attempted — the error never ends the probe scan. -/
theorem c7_transport_error_recorded_and_continues (env : CustomEnv) (t : ParsedUrl)
    (now : Nat) (st : List ScanRow) (k : Nat) (e : String)
    (hk : k < DEFAULT_CREDS.length)
    (ha : env.httpxAvailable = true)
    (hpre : ∀ j, j < k → succAt env.transport j = false)
    (he : env.transport k = .error e) :
    (scan_with_custom env t now st).attempts[k]? =
      some { mkCustomBase t DEFAULT_CREDS[k] with response := some ("Error: " ++ e) } ∧
    (k + 1 < DEFAULT_CREDS.length →
      k + 2 ≤ (scan_with_custom env t now st).requests) := by
  simp only [scan_with_custom, ha, if_true]
  constructor
  · have hpre' : ∀ j, j < k → succAt env.transport (0 + j) = false := by
      intro j hj
      simpa using hpre j hj
    have he' : env.transport (0 + k) = .error e := by
      simpa using he
    exact customLoop_attempt_error env.transport t now st DEFAULT_CREDS 0 k hk
      hpre' e he'
  · intro hk1
    have hpre' : ∀ j, j < k + 1 → succAt env.transport (0 + j) = false := by
      intro j hj
      rw [Nat.zero_add]
      rcases Nat.lt_or_ge j k with hjk | hjk
      · exact hpre j hjk
      · have : j = k := Nat.le_antisymm (Nat.lt_succ_iff.mp hj) hjk
        subst this
        rw [succAt, he]
    exact customLoop_requests_lower env.transport t now st DEFAULT_CREDS 0 (k + 1)
      hk1 hpre'

/-- The probe transport for the C7 witness: every attempt raises. -/
def envE : CustomEnv := ⟨true, fun _ => .error "boom"⟩

/-- C7 (witness): on a transport error at attempt 0, its result dict
records the error text and attempt 1 is still issued. -/
theorem c7_witness :
    (scan_with_custom envE tH 1 []).attempts[0]? =
      some { mkCustomBase tH (DEFAULT_CREDS.get ⟨0, by decide⟩) with
               response := some ("Error: " ++ "boom") } ∧
    (0 + 1 < DEFAULT_CREDS.length →
      0 + 2 ≤ (scan_with_custom envE tH 1 []).requests) :=
  c7_transport_error_recorded_and_continues envE tH 1 [] 0 "boom" (by decide) rfl
    (by intro j hj; exact absurd hj (Nat.not_lt_zero j)) rfl

/-- Every row in the store after the loop was either already there or
is a persisted success record of the probe method. -/
theorem customLoop_store_mem (tr : Transport) (t : ParsedUrl) (now : Nat)
    (st : List ScanRow) :
    ∀ (l : List Cred) (i : Nat) (r : ScanRow),
      r ∈ (customLoop tr t now st l i).store →
      r ∈ st ∨ (r.method = "custom-basic" ∧ r.success = true) := by
  intro l
  induction l with
  | nil =>
    intro i r hr
    exact Or.inl (by simpa [customLoop] using hr)
  | cons c cs ih =>
    intro i r hr
    cases htr : tr i with
    | error e =>
      simp only [customLoop, htr] at hr
      exact ih (i + 1) r hr
    | ok sb =>
      obtain ⟨status, body⟩ := sb
      by_cases hcs : checkSuccess status body = true
      · simp only [customLoop, htr] at hr
        rw [if_pos hcs] at hr
        rw [save_result, List.mem_append] at hr
        rcases hr with hr | hr
        · exact Or.inl hr
        · right
          rw [List.mem_singleton] at hr
          subst hr
          exact ⟨rfl, rfl⟩
      · simp only [customLoop, htr] at hr
        rw [if_neg hcs] at hr
        exact ih (i + 1) r hr

/-- C10 (implicit). The probe engine only ever appends success records:
every row of the store after a `scan_with_custom` run was either
already in the store or is a `custom-basic` row with `success = true` —
failed or errored attempts are never persisted, so the invariant "every
`custom-basic` row has `success = true`" is preserved by every probe
run. -/
theorem c10_probe_persists_only_successes (env : CustomEnv) (t : ParsedUrl)
    (now : Nat) (st : List ScanRow) :
    ∀ r ∈ (scan_with_custom env t now st).store,
      r ∈ st ∨ (r.method = "custom-basic" ∧ r.success = true) := by
  intro r hr
  cases ha : env.httpxAvailable with
  | true =>
    rw [scan_with_custom] at hr
    simp only [ha, if_true] at hr
    exact customLoop_store_mem env.transport t now st DEFAULT_CREDS 0 r hr
  | false =>
    rw [scan_with_custom] at hr
    simp only [ha, Bool.false_eq_true, if_false] at hr
    exact Or.inl hr

/-- The always-succeeding transport for the C10 witness. -/
def envS : CustomEnv := ⟨true, fun _ => .ok (200, "welcome")⟩

/-- C10 (witness): the single row persisted by a successful probe run
on an empty store is a `custom-basic` success record. -/
theorem c10_witness :
    (⟨"http://h", "h", 80, "http", "custom-basic", "admin", "admin", true,
        "HTTP 200 - Authenticated", 7⟩ : ScanRow) ∈ ([] : List ScanRow) ∨
    ((⟨"http://h", "h", 80, "http", "custom-basic", "admin", "admin", true,
        "HTTP 200 - Authenticated", 7⟩ : ScanRow).method = "custom-basic" ∧
     (⟨"http://h", "h", 80, "http", "custom-basic", "admin", "admin", true,
        "HTTP 200 - Authenticated", 7⟩ : ScanRow).success = true) :=
  c10_probe_persists_only_successes envS tH 7 [] _ (by decide)

end CredChecker
